import Mathlib

/-!
# Verification of the VVM instruction-set generator (`gen_vvm.py`)

This file shallowly embeds the opcode-table construction, the opcode
encoder, the generated dispatch/disassembler instruction-pointer
semantics, the trait assigner, the asof case generation, and the
line-reflow utility of `src/VVM/gen_vvm.py`, and proves the specified
properties about them.

Strings are modelled with Lean `String`/`List Char`; Python's slice and
find/rfind semantics (negative indices, clamping, `-1` for failure) are
reproduced by explicit helper functions.
-/

namespace GenVVM

/-- One row of the opcode table: Empirical surface name `emp` (`o[0]`,
possibly empty), VVM canonical name `name` (`o[1]`), Empirical type
signature `sig` (`o[2]`), and opcode arity `arity` (`o[3]`). -/
structure OpEntry where
  emp : String
  name : String
  sig : String
  arity : Nat
deriving DecidableEq, Repr

/-- Python-style `%s` formatting on character lists: each occurrence of
`%s` is replaced by the next argument, in order. -/
def fmtChars : List Char → List String → List Char
  | '%' :: 's' :: rest, a :: args => a.data ++ fmtChars rest args
  | c :: rest, args => c :: fmtChars rest args
  | [], _ => []

/-- Python-style `%` formatting: `fmt p args` is `p % tuple(args)`. -/
def fmt (p : String) (args : List String) : String :=
  ⟨fmtChars p.data args⟩

/-- The type registry: (Empirical name, VVM tag, C++ type), nine rows. -/
def types : List (String × String × String) :=
  [("Int64",     "i64", "int64_t"),
   ("Float64",   "f64", "double"),
   ("Bool",      "b8",  "bool"),
   ("String",    "S",   "std::string"),
   ("Char",      "c8",  "char"),
   ("Timestamp", "T",   "Timestamp"),
   ("Timedelta", "D",   "Timedelta"),
   ("Time",      "TI",  "Time"),
   ("Date",      "DA",  "Date")]

def integer_types : List String := ["Int64"]

def float_types : List String := ["Float64"]

def bool_types : List String := ["Bool"]

def string_types : List String := ["String"]

def char_types : List String := ["Char"]

def timestamp_types : List String := ["Timestamp"]

def timedelta_types : List String := ["Timedelta"]

def time_types : List String := ["Time"]

def date_types : List String := ["Date"]

def arithmetic_types : List String := integer_types ++ float_types

def time_ish_types : List String := timestamp_types ++ time_types ++ date_types

def all_types : List String :=
  arithmetic_types ++ bool_types ++ string_types ++ char_types ++
  time_ish_types ++ timedelta_types

/-- The timedelta-literal units (`units` in `_make_opcodes`). -/
def units : List String := ["ns", "us", "ms", "s", "m", "h", "d"]

/-- The manually listed internal opcodes at the head of `_make_opcodes`. -/
def manual_opcodes : List OpEntry :=
  [⟨"", "halt",         "", 0⟩,
   ⟨"", "alloc",        "", 2⟩,
   ⟨"", "write",        "", 1⟩,
   ⟨"", "save",         "", 1⟩,
   ⟨"", "member",       "", 3⟩,
   ⟨"", "assign",       "", 3⟩,
   ⟨"", "append",       "", 3⟩,
   ⟨"", "repr",         "", 3⟩,
   ⟨"", "load",         "", 3⟩,
   ⟨"", "store",        "", 4⟩,
   ⟨"", "where",        "", 4⟩,
   ⟨"", "br",           "", 1⟩,
   ⟨"", "btrue",        "", 2⟩,
   ⟨"", "bfalse",       "", 2⟩,
   ⟨"", "ret",          "", 1⟩,
   ⟨"", "call",         "", 2⟩,
   ⟨"", "isort",        "", 3⟩,
   ⟨"", "multidx",      "", 4⟩,
   ⟨"", "group",        "", 8⟩,
   ⟨"", "eqmatch",      "", 5⟩,
   ⟨"", "asofmatch",    "", 7⟩,
   ⟨"", "asofnear",     "", 7⟩,
   ⟨"", "asofwithin",   "", 8⟩,
   ⟨"", "eqasofmatch",  "", 10⟩,
   ⟨"", "eqasofnear",   "", 10⟩,
   ⟨"", "eqasofwithin", "", 11⟩,
   ⟨"", "take",         "", 4⟩,
   ⟨"", "concat",       "", 4⟩]

/-- The cast target/source compatibility pairs. -/
def cast_pairs : List (List String × List String) :=
  [(string_types, all_types),
   (integer_types, all_types),
   (float_types, float_types ++ integer_types ++ string_types),
   (char_types, char_types ++ integer_types),
   (bool_types, bool_types),
   (timestamp_types, time_ish_types ++ integer_types ++ string_types),
   (timedelta_types, timedelta_types ++ integer_types ++ string_types),
   (time_types, timestamp_types ++ time_types ++
                integer_types ++ string_types),
   (date_types, timestamp_types ++ date_types ++
                integer_types ++ string_types)]

/-- Casting operators section of `_make_opcodes`. -/
def cast_opcodes : List OpEntry :=
  cast_pairs.flatMap (fun pr =>
    pr.1.flatMap (fun tgt =>
      pr.2.flatMap (fun src =>
        ["%s->%s", "[%s]->[%s]"].map
          (fun p => (⟨tgt, "cast", fmt p [src, tgt], 2⟩ : OpEntry)))))

/-- Print function section of `_make_opcodes`. -/
def print_opcodes : List OpEntry :=
  ["%s->()", "[%s]->()"].flatMap (fun p =>
    all_types.map (fun t => (⟨"print", "print", fmt p [t], 2⟩ : OpEntry)))

/-- The four scalar/array binary-operator signature patterns. -/
def bin_patterns : List String :=
  ["(%s,%s)->%s",     "(%s,[%s])->[%s]",
   "([%s],%s)->[%s]", "([%s],[%s])->[%s]"]

/-- A binary-operator section: entry `(v, k, p % (t,t,t), 3)` for each
`(k, v)` in `ops`, each pattern, and each type in `tys`. -/
def binary_section (ops : List (String × String)) (tys : List String) :
    List OpEntry :=
  ops.flatMap (fun kv =>
    bin_patterns.flatMap (fun p =>
      tys.map (fun t => (⟨kv.2, kv.1, fmt p [t, t, t], 3⟩ : OpEntry))))

/-- Binary operators -- comparison (`(v, k, p % (t,t), 3)`, boolean results). -/
def comparison_opcodes : List OpEntry :=
  [("lt", "<"), ("gt", ">"), ("eq", "=="), ("ne", "!="),
   ("lte", "<="), ("gte", ">=")].flatMap (fun kv =>
    ["(%s,%s)->Bool",     "(%s,[%s])->[Bool]",
     "([%s],%s)->[Bool]", "([%s],[%s])->[Bool]"].flatMap (fun p =>
      all_types.map (fun t => (⟨kv.2, kv.1, fmt p [t, t], 3⟩ : OpEntry))))

/-- A unary-operator section: entry `(v, k, p % (t,t), 2)` for each
`(k, v)` in `ops`, each of the two scalar/array patterns, each type. -/
def unary_section (ops : List (String × String)) (tys : List String) :
    List OpEntry :=
  ops.flatMap (fun kv =>
    ["%s->%s", "[%s]->[%s]"].flatMap (fun p =>
      tys.map (fun t => (⟨kv.2, kv.1, fmt p [t, t], 2⟩ : OpEntry))))

/-- A reduce-aggregator section: entry `(v, k, "[t]->t", 2)`. -/
def reduce_section (ops : List (String × String)) (tys : List String) :
    List OpEntry :=
  ops.flatMap (fun kv =>
    tys.map (fun t => (⟨kv.2, kv.1, fmt "[%s]->%s" [t, t], 2⟩ : OpEntry)))

/-- Time arithmetic: instant minus instant gives Timedelta. -/
def time_sub_opcodes : List OpEntry :=
  [("sub", "-")].flatMap (fun kv =>
    ["(%s,%s)->Timedelta",     "(%s,[%s])->[Timedelta]",
     "([%s],%s)->[Timedelta]", "([%s],[%s])->[Timedelta]"].flatMap (fun p =>
      time_ish_types.map (fun t =>
        (⟨kv.2, kv.1, fmt p [t, t], 3⟩ : OpEntry))))

/-- Time arithmetic: instant/duration op duration gives the left type. -/
def time_delta_opcodes : List OpEntry :=
  [("add", "+"), ("sub", "-"), ("mul", "*"), ("div", "/"),
   ("bar", "bar")].flatMap (fun kv =>
    bin_patterns.flatMap (fun p =>
      (time_ish_types ++ timedelta_types).flatMap (fun t1 =>
        timedelta_types.map (fun t2 =>
          (⟨kv.2, kv.1, fmt p [t1, t2, t1], 3⟩ : OpEntry)))))

/-- Time arithmetic: duration op instant gives the right type. -/
def delta_time_opcodes : List OpEntry :=
  [("add", "+"), ("mul", "*")].flatMap (fun kv =>
    bin_patterns.flatMap (fun p =>
      timedelta_types.flatMap (fun t1 =>
        time_ish_types.map (fun t2 =>
          (⟨kv.2, kv.1, fmt p [t1, t2, t2], 3⟩ : OpEntry)))))

/-- Time arithmetic: date plus time gives Timestamp. -/
def date_time_opcodes : List OpEntry :=
  [("add", "+")].flatMap (fun kv =>
    ["(%s,%s)->Timestamp",     "(%s,[%s])->[Timestamp]",
     "([%s],%s)->[Timestamp]", "([%s],[%s])->[Timestamp]"].flatMap (fun p =>
      date_types.flatMap (fun t1 =>
        time_types.map (fun t2 =>
          (⟨kv.2, kv.1, fmt p [t1, t2], 3⟩ : OpEntry)))))

/-- Timedelta literals: `suffixU` / `unit_U` per unit. -/
def unit_opcodes : List OpEntry :=
  units.map (fun u =>
    (⟨"suffix" ++ u, "unit_" ++ u, "Int64->Timedelta", 2⟩ : OpEntry))

/-- Wrappers: len/count over all types, range over integers. -/
def wrapper_opcodes : List OpEntry :=
  ([("len", "len"), ("count", "count")].flatMap (fun kv =>
    all_types.map (fun t =>
      (⟨kv.2, kv.1, fmt "[%s]->Int64" [t], 2⟩ : OpEntry)))) ++
  ([("range", "range")].flatMap (fun kv =>
    integer_types.map (fun t =>
      (⟨kv.2, kv.1, fmt "%s->[%s]" [t, t], 2⟩ : OpEntry))))

/-- Manually defined operators -- scalar and vector (`del`). -/
def del_opcodes : List OpEntry :=
  [("del", 1)].flatMap (fun kv =>
    ["%s", "[%s]"].flatMap (fun p =>
      all_types.map (fun t => (⟨"", kv.1, fmt p [t], kv.2⟩ : OpEntry))))

/-- Manually defined operators -- vector only (`idx`). -/
def idx_opcodes : List OpEntry :=
  [(("idx" : String), (3 : Nat))].flatMap (fun kv =>
    all_types.map (fun t =>
      (⟨"", kv.1, fmt "([%s],Int64)->%s" [t, t], kv.2⟩ : OpEntry)))

/-- `_make_opcodes`: programmatically build the table of VVM operators,
concatenating the sections in the order the Python code appends them. -/
def _make_opcodes : List OpEntry :=
  manual_opcodes ++
  [⟨"now", "now", "Timestamp", 1⟩] ++
  cast_opcodes ++
  print_opcodes ++
  binary_section [("or", "or"), ("and", "and")] bool_types ++
  binary_section [("bitand", "&"), ("bitor", "|"), ("lshift", "<<"),
                  ("rshift", ">>"), ("mod", "%")] integer_types ++
  binary_section [("add", "+"), ("sub", "-"), ("mul", "*"), ("div", "/")]
    arithmetic_types ++
  comparison_opcodes ++
  unary_section [("not", "not")] bool_types ++
  unary_section [("neg", "-"), ("pos", "+")] arithmetic_types ++
  unary_section [("sin", "sin"), ("cos", "cos"), ("tan", "tan"),
                 ("asin", "asin"), ("acos", "acos"), ("atan", "atan"),
                 ("sinh", "sinh"), ("cosh", "cosh"), ("tanh", "tanh"),
                 ("asinh", "asinh"), ("acosh", "acosh"), ("atanh", "atanh")]
    float_types ++
  reduce_section [("sum", "sum"), ("prod", "prod")] arithmetic_types ++
  binary_section [("add", "+")] string_types ++
  reduce_section [("sum", "sum")] string_types ++
  time_sub_opcodes ++
  time_delta_opcodes ++
  delta_time_opcodes ++
  date_time_opcodes ++
  unit_opcodes ++
  wrapper_opcodes ++
  del_opcodes ++
  idx_opcodes

/-- The module-level table: `opcodes = _make_opcodes()`. -/
def opcodes : List OpEntry := _make_opcodes

/-- `_vvm_types`: Empirical name to VVM tag. -/
def _vvm_types : List (String × String) := types.map (fun t => (t.1, t.2.1))

/-- Cons a character onto the first piece of a split result. -/
def consHead (c : Char) : List (List Char) → List (List Char)
  | [] => [[c]]
  | h :: t => (c :: h) :: t

/-- Python `s.split("->")` on character lists: split on each
non-overlapping occurrence of `->`, scanning left to right. -/
def splitOnArrow : List Char → List (List Char)
  | [] => [[]]
  | '-' :: '>' :: rest => [] :: splitOnArrow rest
  | c :: rest => consHead c (splitOnArrow rest)

/-- Python `s.split(",")` on character lists. -/
def splitOnComma : List Char → List (List Char)
  | [] => [[]]
  | ',' :: rest => [] :: splitOnComma rest
  | c :: rest => consHead c (splitOnComma rest)

/-- Fuel-indexed body of `get_vvm_type`; the recursion strips one pair of
enclosing brackets per step, so `t.length + 1` fuel always suffices. -/
def get_vvm_typeF : Nat → List Char → List Char → Option (List Char)
  | 0, _, _ => none
  | fuel + 1, t, app =>
    if t ≠ [] ∧ t.head? = some '[' ∧ t.getLast? = some ']' then
      get_vvm_typeF fuel ((t.drop 1).dropLast) ['v']
    else
      (_vvm_types.lookup ⟨t⟩).map (fun tag => tag.data ++ app)

/-- `get_vvm_type` inside `get_opcode`: convert Empirical's type to VVM's
type.  A type written `[elem]` recurses on the element with suffix `v`;
otherwise the tag is looked up in `_vvm_types` and the suffix appended
(`none` models Python's `KeyError`, a build-time failure). -/
def get_vvm_type (t : List Char) (app : List Char) : Option (List Char) :=
  get_vvm_typeF (t.length + 1) t app

/-- `get_opcode`: generate the op code for a function name and type
signature.  `none` models a Python runtime error (unregistered type tag
or an out-of-range index), which aborts generation. -/
def get_opcode (func_name : String) (type_sig : String) : Option String :=
  if type_sig.data.length = 0 then some func_name
  else
    let tys := splitOnArrow type_sig.data
    let params := tys.headD []
    let suffix? : Option (List Char) :=
      match params with
      | [] => none
      | c :: _ =>
        if c = '(' ∧ params.getLast? = some ')' then
          let ps := splitOnComma ((params.drop 1).dropLast)
          (ps.mapM (fun p => get_vvm_type p ['s'])).map
            (fun segs => segs.foldl (fun acc sg => acc ++ '_' :: sg) [])
        else
          (get_vvm_type params ['s']).map (fun sg => '_' :: sg)
    match suffix? with
    | none => none
    | some suffix =>
      if func_name = "cast" then
        match tys[1]? with
        | none => none
        | some tgt =>
          (get_vvm_type tgt ['s']).map
            (fun sg => ⟨func_name.data ++ (suffix ++ '_' :: sg)⟩)
      else some ⟨func_name.data ++ suffix⟩

/-! ## Generated engine semantics

`DispatchWriter` emits two dispatch engines (a label-threaded one and,
under `_MSC_VER`, a switch-based one) and `DisassemblerWriter` emits two
matching disassemblers.  Each is transcribed below as a step function on
an instruction stream: given the stream and the instruction pointer it
returns `none` when execution stops (on `halt`, or on an opcode value
outside the table, which is undefined behaviour in the generated C++)
and otherwise the label of the executed opcode together with the next
instruction pointer.  Out-of-bounds stream reads (undefined behaviour in
the generated C++) are modelled as reading 0. -/

/-- Read a word of the instruction stream (`code[i]`). -/
def fetch (code : List Nat) (i : Nat) : Nat :=
  code.getD i 0

/-- Modelled from the spec: the external operation invoked by the
dispatch engines is implemented in the VM runtime, which is not part of
this source file.  Per the spec, after a `call` the instruction pointer
(owned externally and already advanced past the instruction by the
engine) additionally advances past the nested sub-block, whose length is
decoded from the upper bits of the final operand (`code[p + arity]`,
shifted right by two, matching the decode the generated disassembler
uses); every other operation leaves the pointer where the engine put
it. -/
def externIpEffect (name : String) (code : List Nat) (p arity ip : Nat) : Nat :=
  if name = "call" then ip + (fetch code (p + arity)) >>> 2 else ip

/-- Step of the label-threaded dispatch engine (`DispatchWriter`,
non-`_MSC_VER` branch): on `halt` return; otherwise `p = ip_;
ip_ += arity + 1;` then the external operation named by the entry runs
(receiving the operands and, for `ret`/`call`, the stream) and the
engine jumps through the label table at `code[ip_]`. -/
def dispatchStepLabel (code : List Nat) (ip : Nat) : Option (String × Nat) :=
  match opcodes[fetch code ip]? with
  | none => none
  | some o =>
    match get_opcode o.name o.sig with
    | none => none
    | some oc =>
      if oc = "halt" then none
      else
        let p := ip
        let ip1 := ip + (o.arity + 1)
        some (oc, externIpEffect o.name code p o.arity ip1)

/-- Step of the switch-based dispatch engine (`DispatchWriter`,
`_MSC_VER` branch): identical per-opcode body inside
`while (true) switch (opcodes(code[ip_]))`. -/
def dispatchStepSwitch (code : List Nat) (ip : Nat) : Option (String × Nat) :=
  match opcodes[fetch code ip]? with
  | none => none
  | some o =>
    match get_opcode o.name o.sig with
    | none => none
    | some oc =>
      if oc = "halt" then none
      else
        let p := ip
        let ip1 := ip + (o.arity + 1)
        some (oc, externIpEffect o.name code p o.arity ip1)

/-- Step of the label-threaded disassembler (`DisassemblerWriter`,
non-`_MSC_VER` branch): on `halt` return the text; otherwise `p = ip;
ip += arity + 1;` render the mnemonic and operands, and for `call`
additionally `ip += (code[p + arity] >> 2)` to skip the nested
sub-block. -/
def disStepLabel (code : List Nat) (ip : Nat) : Option (String × Nat) :=
  match opcodes[fetch code ip]? with
  | none => none
  | some o =>
    match get_opcode o.name o.sig with
    | none => none
    | some oc =>
      if oc = "halt" then none
      else
        let p := ip
        let ip1 := ip + (o.arity + 1)
        let ip2 := if oc = "call" then ip1 + (fetch code (p + o.arity)) >>> 2 else ip1
        some (oc, ip2)

/-- Step of the switch-based disassembler (`DisassemblerWriter`,
`_MSC_VER` branch): identical per-opcode body in switch form. -/
def disStepSwitch (code : List Nat) (ip : Nat) : Option (String × Nat) :=
  match opcodes[fetch code ip]? with
  | none => none
  | some o =>
    match get_opcode o.name o.sig with
    | none => none
    | some oc =>
      if oc = "halt" then none
      else
        let p := ip
        let ip1 := ip + (o.arity + 1)
        let ip2 := if oc = "call" then ip1 + (fetch code (p + o.arity)) >>> 2 else ip1
        some (oc, ip2)

/-- Run a step function for at most `fuel` instructions, recording the
opcode label and the resulting instruction pointer of each executed
instruction. -/
def engineTrace (step : List Nat → Nat → Option (String × Nat))
    (code : List Nat) : Nat → Nat → List (String × Nat)
  | 0, _ => []
  | fuel + 1, ip =>
    match step code ip with
    | none => []
    | some (oc, ip2) => (oc, ip2) :: engineTrace step code fuel ip2

/-- The instruction-pointer trajectory: the start pointer followed by the
pointer after each executed instruction. -/
def ipTrajectory (step : List Nat → Nat → Option (String × Nat))
    (code : List Nat) (fuel : Nat) : List Nat :=
  0 :: (engineTrace step code fuel 0).map Prod.snd

/-- An argument passed to an external operation by the generated
dispatch code: an operand word, or the whole instruction stream. -/
inductive DispatchArg where
  | operand (w : Nat)
  | stream (code : List Nat)
deriving DecidableEq

/-- The argument list the generated dispatch code passes to the external
operation of entry `o` at instruction position `p`:
`code[p + 1] ... code[p + arity]`, plus the stream itself when the
opcode label is `ret` or `call`. -/
def dispatchArgs (code : List Nat) (p : Nat) (o : OpEntry) : List DispatchArg :=
  let args := (List.range o.arity).map (fun i => DispatchArg.operand (fetch code (p + (i + 1))))
  if get_opcode o.name o.sig = some "ret" ∨ get_opcode o.name o.sig = some "call" then
    args ++ [DispatchArg.stream code]
  else args

/-- The instruction stream "alloc(Int64,1), write(0), halt": opcode
values 1 (`alloc`, 2 operands), 2 (`write`, 1 operand), 0 (`halt`). -/
def c5_code : List Nat := [1, 7, 7, 2, 7, 0]

/-- A `call` stream: opcode value 15 (`call`, 2 operands), operands 9
and 16; the final operand 16 encodes sub-block length 16 >>> 2 = 4, so
the four words at positions 3..6 are the nested sub-block and `halt`
sits at position 7. -/
def c6_code : List Nat := [15, 9, 16, 1, 1, 1, 1, 0]

/-! ## Uniqueness of encoded identifiers (C2)

The pairwise-distinctness check over all 619 identifiers is moved onto
kernel-friendly `Nat` arithmetic: each identifier is fingerprinted into
`[0, 2^20)`, the fingerprint list is checked distinct with a single
bitmask pass, and `List.Nodup.of_map` transfers distinctness of the
fingerprints back to the identifiers themselves (a fingerprint collision
could only make the check fail, never succeed spuriously). -/

/-- Numeric fingerprint of an encoded identifier. -/
def encodeSmall : Option String → Nat
  | none => 0
  | some s => s.data.foldl (fun acc c => (acc * 131 + c.toNat) % 1048576) 1

/-- The fingerprints of all encoded identifiers, in table order. -/
def small_keys : List Nat :=
  [449386, 761476, 414866, 13858, 299607, 43332, 1021159, 979366, 243363, 370612, 933722, 30113, 874231, 658666, 23488, 743259, 670462, 548284, 819782, 468424, 231067, 418982, 513653, 115475, 466126, 51165, 163356, 347549, 537397, 530600, 983420, 17693, 470513, 879057, 283301, 18444, 471264, 111940, 564760, 917085, 321329, 681192, 85436, 523056, 975876, 170317, 623137, 1024804, 820608, 774721, 570525, 866453, 662257, 31144, 875524, 194720, 1039100, 202113, 1046493, 594276, 390080, 537068, 332872, 612337, 408141, 321904, 117708, 571987, 367791, 626903, 422707, 251038, 849812, 569546, 119744, 62908, 661682, 917216, 321460, 681323, 85567, 523187, 976007, 530731, 983551, 18575, 471395, 168352, 621172, 528635, 981455, 16479, 469299, 612245, 162443, 118966, 717740, 314358, 913132, 330786, 929560, 336621, 935395, 99046, 697820, 38734, 637508, 55162, 653936, 1038879, 586062, 664554, 667531, 681715, 667662, 426527, 150903, 665566, 1038882, 586065, 664557, 667534, 681718, 667665, 426530, 150906, 665569, 358668, 358671, 957439, 957442, 900534, 900537, 450729, 450732, 264463, 264466, 60264, 60267, 955519, 955522, 751320, 751323, 899923, 899926, 695724, 695727, 274133, 274136, 69934, 69937, 497077, 497080, 292878, 292881, 213536, 559212, 213539, 559215, 9337, 355013, 9340, 355016, 843499, 140599, 843502, 140602, 639300, 984976, 639303, 984979, 1033183, 330283, 1033186, 330286, 828984, 126084, 828987, 126087, 929084, 226184, 929087, 226187, 724885, 21985, 724888, 21988, 367573, 713249, 270373, 584813, 458503, 435009, 326431, 306511, 734721, 367576, 713252, 270376, 584816, 458506, 435012, 326434, 306514, 734724, 163374, 509050, 869144, 1037630, 8698, 887826, 925202, 905282, 138962, 163377, 509053, 869147, 1037633, 8701, 887829, 925205, 905285, 138965, 700526, 1046202, 194870, 797750, 383000, 647946, 250928, 231008, 947658, 700529, 1046205, 194873, 797753, 383003, 647949, 250931, 231011, 947661, 496327, 842003, 793641, 201991, 981771, 52187, 849699, 829779, 351899, 496330, 842006, 793644, 201994, 981774, 52190, 849702, 829782, 351902, 771197, 68297, 124301, 579733, 312431, 429929, 180359, 160439, 729641, 771200, 68300, 124304, 579736, 312434, 429932, 180362, 160442, 729644, 566998, 912674, 723072, 1032550, 911202, 882746, 779130, 759210, 133882, 567001, 912677, 723075, 1032553, 911205, 882749, 779133, 759213, 133885, 131556, 477232, 937596, 871116, 77150, 721312, 993654, 973734, 1021024, 131559, 477235, 937599, 871119, 77153, 721315, 993657, 973737, 1021027, 975933, 273033, 487791, 275357, 675921, 125553, 543849, 523929, 425265, 975936, 273036, 487794, 275360, 675924, 125556, 543852, 523932, 425268, 170196, 515872, 604652, 951996, 792782, 802192, 660710, 640790, 53328, 170199, 515875, 604655, 951999, 792785, 802195, 660713, 640793, 53331, 1014573, 311673, 154847, 356237, 342977, 206433, 210905, 190985, 506145, 1014576, 311676, 154850, 356240, 342980, 206436, 210908, 190988, 506148, 795423, 92523, 150943, 535191, 339073, 385387, 207001, 187081, 685099, 795426, 92526, 150946, 535194, 339076, 385390, 207004, 187084, 685102, 591224, 936900, 749714, 988008, 937844, 838204, 805772, 785852, 89340, 591227, 936903, 749717, 988011, 937847, 838207, 805775, 785855, 89343, 826860, 826863, 155092, 750851, 155095, 750854, 753096, 300279, 753099, 300282, 46275, 46278, 644200, 644203, 103942, 103945, 94854, 94857, 692779, 692782, 152521, 152524, 138741, 138744, 872292, 872295, 353086, 353089, 211134, 211137, 944685, 944688, 425479, 425482, 172112, 767871, 681046, 228229, 126024, 126027, 578841, 578844, 584140, 201079, 851205, 831285, 201082, 851208, 831288, 653896, 401400, 381480, 653899, 401403, 381483, 1022700, 92143, 982583, 275932, 1022703, 92146, 982586, 275935, 426941, 544960, 386824, 728749, 426944, 544963, 386827, 728752, 198983, 188544, 30408, 500791, 198986, 188547, 30411, 500794, 651800, 641361, 483225, 953608, 651803, 641364, 483228, 953611, 359931, 301212, 143076, 661739, 359934, 301215, 143079, 661742, 812748, 754029, 595893, 65980, 812751, 754032, 595896, 65983, 991560, 207107, 48971, 244792, 991563, 207110, 48974, 244795, 395801, 659924, 501788, 697609, 395804, 659927, 501791, 697612, 271946, 309513, 151377, 573754, 271949, 309516, 151380, 573757, 724763, 762330, 604194, 1026571, 724766, 762333, 604197, 1026574, 278028, 764697, 489073, 278031, 764700, 489076, 730845, 314892, 39268, 730848, 314895, 39271, 663835, 973766, 698142, 663838, 973769, 698145, 68076, 523961, 248337, 68079, 523964, 248340, 12714, 12717, 611485, 611488, 702440, 850647, 531471, 482830, 891228, 532509, 455249, 323046, 918805, 667097, 115250, 684258, 115381, 429070, 153446, 113285, 710588, 257771, 501963, 730328, 519124, 730459, 263936, 1036888, 728363, 102079, 939685, 486868, 647788, 707425, 664949, 707556, 409761, 134137, 705460, 939688, 486871, 647791, 707428, 664952, 707559, 409764, 134140, 705463, 1033525, 783442, 1040086, 390137, 368353, 561106, 767909, 710701, 971330]

/-- One-pass distinctness check: `acc` is the bitmask of numbers seen so
far; each element must not be in the mask and is then added to it. -/
def goMask (acc : Nat) : List Nat → Bool
  | [] => true
  | r :: t => !(Nat.testBit acc r) && goMask (acc ||| (1 <<< r)) t

/-! ## Trait assignment (C7), from `BuiltinsWriter.run` -/

def none_traits : Nat := 0

def pure_trait : Nat := 1

def transform_trait : Nat := 2

def linear_trait : Nat := 4

def autostream_trait : Nat := 8

/-- `pure | transform | linear`, the default trait set. -/
def all_traits : Nat := pure_trait ||| transform_trait ||| linear_trait

/-- `transform | linear` (input/output). -/
def io_traits : Nat := transform_trait ||| linear_trait

/-- `pure | linear` (change array). -/
def ca_traits : Nat := pure_trait ||| linear_trait

/-- `pure | transform` (random access). -/
def ra_traits : Nat := pure_trait ||| transform_trait

/-- The override dictionary `d` in `BuiltinsWriter.run`. -/
def trait_overrides : List (String × Nat) :=
  [("load", autostream_trait), ("store", none_traits), ("print", none_traits),
   ("unique", ca_traits), ("idx", ra_traits), ("multidx", ra_traits),
   ("sort", ra_traits), ("range", all_traits ||| autostream_trait),
   ("now", io_traits)]

/-- The trait assignment of `BuiltinsWriter.run`: the default set unless
the name has an override (`traits = all_traits; if o[0] in d: traits =
d[o[0]]`).  The writer applies it to the surface name `o[0]` of every
entry with a nonempty surface name. -/
def builtinTraits (name : String) : Nat :=
  match trait_overrides.lookup name with
  | some t => t
  | none => all_traits

/-! ## Restricted asof operations (C8), from `AsofWriter.run` -/

/-- The body of one generated `switch` case in the asof helpers. -/
inductive AsofCaseBody where
  | dispatchImpl
  | throwErr
deriving DecidableEq

/-- From `AsofWriter.run`: in the restricted asof helpers
(`asofnear_arr`, `asofwithin_arr`, `eqasofnear_df`, `eqasofwithin_df`),
a type in `arithmetic_types + time_ish_types` gets a case dispatching to
the template implementation; every other type gets a case that throws
`std::logic_error` (commented "Empirical's type check should prevent
err").  Both the scalar and the array case of a type get the same
body. -/
def restrictedAsofCase (t : String) : AsofCaseBody :=
  if (arithmetic_types ++ time_ish_types).contains t then
    AsofCaseBody.dispatchImpl
  else AsofCaseBody.throwErr

/-- The restricted asof operations with their table arities. -/
def restricted_asof_ops : List (String × Nat) :=
  [("asofnear", 7), ("asofwithin", 8), ("eqasofnear", 10), ("eqasofwithin", 11)]

/-! ## Identifier round-trip (C3) -/

/-- Python `s.split("_")` on character lists. -/
def splitOnUnderscore : List Char → List (List Char)
  | [] => [[]]
  | '_' :: rest => [] :: splitOnUnderscore rest
  | c :: rest => consHead c (splitOnUnderscore rest)

/-- The concrete parameter types of a signature, parsed the way
`get_opcode` parses them: the part before `->`, either a parenthesized
comma list or a single type. -/
def sigParams (type_sig : String) : List String :=
  let tys := splitOnArrow type_sig.data
  let params := tys.headD []
  match params with
  | [] => []
  | c :: _ =>
    if c = '(' ∧ params.getLast? = some ')' then
      (splitOnComma ((params.drop 1).dropLast)).map (fun p => (⟨p⟩ : String))
    else [⟨params⟩]

/-- The target type of a signature: the part after `->`. -/
def sigTarget (type_sig : String) : String :=
  ⟨(splitOnArrow type_sig.data).getD 1 []⟩

/-- Modelled from the spec: decode one identifier suffix via the Axis
Registry — the trailing marker `s` (scalar) or `v` (array) is stripped,
the remaining tag is resolved through the `types` table, and an array is
rendered bracket-delimited. -/
def decodeSuffix (chunk : List Char) : Option String :=
  match chunk.getLast? with
  | some 's' =>
    (types.find? (fun t => t.2.1 = (⟨chunk.dropLast⟩ : String))).map (fun t => t.1)
  | some 'v' =>
    (types.find? (fun t => t.2.1 = (⟨chunk.dropLast⟩ : String))).map
      (fun t => "[" ++ t.1 ++ "]")
  | _ => none

/-- The underscore-separated suffix chunks of an entry's identifier:
what follows the canonical name and its separating underscore. -/
def idChunks (o : OpEntry) : Option (List (List Char)) :=
  (get_opcode o.name o.sig).map
    (fun id => splitOnUnderscore (id.data.drop (o.name.data.length + 1)))

/-- What decoding must recover: the concrete parameter types and, for
`cast`, also the target type. -/
def expectedTypes (o : OpEntry) : List String :=
  sigParams o.sig ++ (if o.name = "cast" then [sigTarget o.sig] else [])

/-! ## Scalar/array pairing (C4) -/

/-- A signature in scalar form: nonempty with no array bracket. -/
def isScalarSig (sig : String) : Bool :=
  sig ≠ "" && sig.data.all (fun c => c ≠ '[')

/-- The array-form counterpart of a signature: every parameter and the
result type wrapped as an array, the unit result `()` left unchanged. -/
def arrayifySig (sig : String) : String :=
  let parts := splitOnArrow sig.data
  let wrap : List Char → List Char := fun p =>
    if p = "()".data then p
    else if p.head? = some '(' ∧ p.getLast? = some ')' then
      '(' :: (List.intercalate [','] ((splitOnComma ((p.drop 1).dropLast)).map
        (fun q => '[' :: q ++ [']']))) ++ [')']
    else '[' :: p ++ [']']
  ⟨List.intercalate ['-', '>'] (parts.map wrap)⟩

/-- The scalar-form entries subject to pairing (all scalar-form entries
except `now` and the timedelta literals), each rewritten to the array
counterpart the table must contain.  Family expansion emits the
counterparts in the same relative order, so this list is an in-order
sublist of the table. -/
def neededCounterparts : List OpEntry :=
  opcodes.filterMap (fun o =>
    if isScalarSig o.sig ∧ o.name ≠ "now" ∧
        o.name ∉ units.map (fun u => "unit_" ++ u) then
      some ⟨o.emp, o.name, arrayifySig o.sig, o.arity⟩
    else none)

/-- Greedy sublist test. -/
def isSublistB : List OpEntry → List OpEntry → Bool
  | [], _ => true
  | _ :: _, [] => false
  | a :: l1, b :: l2 => if a = b then isSublistB l1 l2 else isSublistB (a :: l1) l2

/-! ## The source emitter `reflow_lines` (C9, C10)

`reflow_lines(s, depth)` is transcribed on `List Char` with explicit
Python slice/find semantics: `pyBound` resolves a (possibly negative)
slice index, `pyFindChar`/`pyRfindChar` return the absolute index of the
first/last occurrence in `s[a:b]` or `-1`.  The `while` loop gets an
explicit fuel; `none` means the loop ran longer than the fuel — in
particular it is the value of an infinite loop for every fuel. -/

/-- Resolve a Python slice endpoint against a length. -/
def pyBound (n : Nat) (i : Int) : Nat :=
  if i < 0 then ((n : Int) + i).toNat else min n i.toNat

/-- Python `s[a:b]`. -/
def pySlice (l : List Char) (a b : Int) : List Char :=
  (l.take (pyBound l.length b)).drop (pyBound l.length a)

/-- Python `s.find(c, a, b)`. -/
def pyFindChar (l : List Char) (c : Char) (a b : Int) : Int :=
  let lo := pyBound l.length a
  let hi := pyBound l.length b
  match ((l.take hi).drop lo).findIdx? (fun x => x == c) with
  | some k => ((lo + k : Nat) : Int)
  | none => -1

/-- Python `s.rfind(c, a, b)`. -/
def pyRfindChar (l : List Char) (c : Char) (a b : Int) : Int :=
  let lo := pyBound l.length a
  let hi := pyBound l.length b
  let seg := (l.take hi).drop lo
  match seg.reverse.findIdx? (fun x => x == c) with
  | some k => ((lo + (seg.length - 1 - k) : Nat) : Int)
  | none => -1

def TABSIZE : Nat := 2

def MAX_COL : Nat := 80

/-- The break-point computation of one loop iteration of `reflow_lines`:
`i = cur.rfind(' ', 0, size)`; on failure `i = cur.find(' ')`; and if
`cur[:i]` contains an odd number of quotes, back up to just before the
last quote.  Returns the raw last-space result `i0`, whether the quote
adjustment fired, and the final break index `i`. -/
def reflowBreak (cur : List Char) (size : Int) : Int × Bool × Int :=
  let i0 := pyRfindChar cur ' ' 0 size
  let i1 := if i0 = -1 then pyFindChar cur ' ' 0 (cur.length : Int) else i0
  let adjust := (pySlice cur 0 i1).count '"' % 2 == 1
  let i := if adjust then pyRfindChar cur '"' 0 i1 - 1 else i1
  (i0, adjust, i)

/-- The first-iteration resize of `reflow_lines`: continuation lines
align to the column after the first `{` (plus the following space) or
`(` before the break, shrinking the budget accordingly. -/
def reflowResize (cur : List Char) (i : Int) (size : Int) (padding : List Char)
    (nlines : Nat) : Int × List Char :=
  if nlines + 1 = 1 then
    if pyFindChar cur '{' 0 i ≥ 0 then
      (size - (pyFindChar cur '{' 0 i + 2),
       List.replicate (pyFindChar cur '{' 0 i + 2).toNat ' ')
    else if pyFindChar cur '(' 0 i ≥ 0 then
      (size - (pyFindChar cur '(' 0 i + 1),
       List.replicate (pyFindChar cur '(' 0 i + 1).toNat ' ')
    else (size, padding)
  else (size, padding)

/-- The `while len(cur) > size` loop of `reflow_lines`, with fuel.
`nlines` counts the lines already appended (the `len(lines) == 1` resize
check is the `nlines = 0` iteration); the `else` of Python's
`while/else` appends `padding + cur` on normal exit. -/
def reflowLoop : Nat → List Char → Int → List Char → Nat →
    Option (List (List Char))
  | 0, cur, size, padding, _ =>
    if (cur.length : Int) > size then none else some [padding ++ cur]
  | fuel + 1, cur, size, padding, nlines =>
    if (cur.length : Int) > size then
      let i := (reflowBreak cur size).2.2
      let line := padding ++ pySlice cur 0 i
      let rs := reflowResize cur i size padding nlines
      (reflowLoop fuel (pySlice cur (i + 1) (cur.length : Int)) rs.1 rs.2
        (nlines + 1)).map (fun rest => line :: rest)
    else some [padding ++ cur]

/-- `reflow_lines(s, depth)`: reflow the line `s` indented `depth` tabs,
with explicit fuel for the loop. -/
def reflow_lines (s : List Char) (depth : Nat) (fuel : Nat) :
    Option (List (List Char)) :=
  let size : Int := (MAX_COL : Int) - (depth : Int) * (TABSIZE : Int)
  if (s.length : Int) < size then some [s]
  else reflowLoop fuel s size [] 0

/-- The premise of the amended budget claim: in every loop iteration the
last-space-before-budget search succeeds and the chosen break is not in
an odd-quote-count prefix (so the quote adjustment does not fire).
Mirrors the control flow of `reflowLoop`. -/
def cleanLoop : Nat → List Char → Int → Nat → Bool
  | 0, cur, size, _ => !((cur.length : Int) > size : Bool)
  | fuel + 1, cur, size, nlines =>
    if (cur.length : Int) > size then
      let br := reflowBreak cur size
      let rs := reflowResize cur br.2.2 size [] nlines
      (decide (br.1 ≠ -1) && !br.2.1) &&
        cleanLoop fuel (pySlice cur (br.2.2 + 1) (cur.length : Int)) rs.1
          (nlines + 1)
    else true

/-- A long line with no space character: 81 copies of `a`. -/
def c10_s : List Char := List.replicate 81 'a'

/-- A line whose only space lies beyond the 80-column budget. -/
def c9_s : List Char := List.replicate 81 'a' ++ [' ', 'b']

/-- A long line with a space just before the budget. -/
def c9w_s : List Char := List.replicate 79 'a' ++ [' '] ++ List.replicate 9 'b'

/-- Fingerprinting every identifier of the table gives `small_keys`. -/
theorem small_keys_eq :
    opcodes.map (fun o => encodeSmall (get_opcode o.name o.sig)) = small_keys := by
  decide!

theorem goMask_sound : ∀ (l : List Nat) (acc : Nat), goMask acc l = true →
    l.Nodup ∧ ∀ x ∈ l, acc.testBit x = false := by
  intro l
  induction l with
  | nil =>
    intro acc _
    exact ⟨List.nodup_nil, by intro x hx; cases hx⟩
  | cons r t ih =>
    intro acc h
    rw [goMask, Bool.and_eq_true, Bool.not_eq_true'] at h
    obtain ⟨hbit, hrest⟩ := h
    obtain ⟨hnodup, hmask⟩ := ih (acc ||| 1 <<< r) hrest
    have hpow : (1 <<< r) = 2 ^ r := by rw [Nat.shiftLeft_eq, one_mul]
    have htail : ∀ x ∈ t, acc.testBit x = false ∧ x ≠ r := by
      intro x hx
      have := hmask x hx
      rw [Nat.testBit_or, Bool.or_eq_false_iff, hpow] at this
      refine ⟨this.1, fun hxr => ?_⟩
      have := this.2
      rw [hxr, Nat.testBit_two_pow_self] at this
      exact absurd this (by simp)
    have hr : r ∉ t := fun hrt => (htail r hrt).2 rfl
    refine ⟨List.nodup_cons.mpr ⟨hr, hnodup⟩, ?_⟩
    intro x hx
    rcases List.mem_cons.mp hx with h1 | h2
    · rw [h1]; exact hbit
    · exact (htail x h2).1

/-- The fingerprint list passes the bitmask distinctness check. -/
theorem small_keys_maskB : goMask 0 small_keys = true := by decide!

theorem small_keys_nodup : small_keys.Nodup :=
  (goMask_sound small_keys 0 small_keys_maskB).1

/-- C2: for every pair of distinct entries in the generated opcode table,
the identifiers produced by `get_opcode` from (canonical name,
type signature) are pairwise distinct; i.e. the list of encoded
identifiers, in table order, has no duplicates. -/
theorem opcode_identifiers_distinct :
    (opcodes.map (fun o => get_opcode o.name o.sig)).Nodup := by
  have h : ((opcodes.map (fun o => get_opcode o.name o.sig)).map encodeSmall).Nodup := by
    rw [List.map_map]
    have h2 := small_keys_eq ▸ small_keys_nodup
    simpa [Function.comp] using h2
  exact List.Nodup.of_map _ h

/-! ## Engine agreement (C1) and pointer-arithmetic scenarios (C5, C6) -/

/-- Table-wide check: an entry's label is `call` exactly when its
canonical name is `call` (the dispatch engines key the external `call`
behaviour on the name, the disassembler keys the sub-block skip on the
label). -/
theorem call_label_allB :
    opcodes.all (fun o =>
      decide ((get_opcode o.name o.sig = some "call") ↔ o.name = "call")) = true := by
  decide!

theorem call_label_iff (o : OpEntry) (ho : o ∈ opcodes) :
    (get_opcode o.name o.sig = some "call") ↔ o.name = "call" :=
  of_decide_eq_true (List.all_eq_true.mp call_label_allB o ho)

/-- The two generated dispatch engines have literally the same step
behaviour: the per-opcode bodies emitted by `DispatchWriter` differ only
in control-flow syntax (`goto` through the label table versus
`switch`/`break` in a loop). -/
theorem dispatch_label_eq_switch : dispatchStepLabel = dispatchStepSwitch := rfl

/-- Same for the two generated disassemblers. -/
theorem dis_label_eq_switch : disStepLabel = disStepSwitch := rfl

/-- Dispatch engine and disassembler take identical steps: both advance
by `arity + 1`, and for `call` both advance additionally by the decoded
sub-block length (the engine via the external operation, the
disassembler via its own `ip += code[p + arity] >> 2`). -/
theorem dispatch_step_eq_dis_step (code : List Nat) (ip : Nat) :
    dispatchStepLabel code ip = disStepLabel code ip := by
  unfold dispatchStepLabel disStepLabel
  cases ho : opcodes[fetch code ip]? with
  | none => rfl
  | some o =>
    have hmem : o ∈ opcodes := by
      obtain ⟨hlt, he⟩ := List.getElem?_eq_some.mp ho
      exact he ▸ List.getElem_mem hlt
    cases hoc : get_opcode o.name o.sig with
    | none => simp only [hoc]
    | some oc =>
      simp only [hoc]
      by_cases hh : oc = "halt"
      · rw [if_pos hh, if_pos hh]
      · rw [if_neg hh, if_neg hh]
        unfold externIpEffect
        by_cases hc : oc = "call"
        · have hn : o.name = "call" := (call_label_iff o hmem).mp (by rw [hoc, hc])
          rw [if_pos hc, if_pos hn]
        · have hn : ¬ o.name = "call" := by
            intro h
            have h2 := (call_label_iff o hmem).mpr h
            rw [hoc] at h2
            exact hc (Option.some.inj h2)
          rw [if_neg hc, if_neg hn]

/-- Traces of pointwise-equal step functions agree. -/
theorem engineTrace_congr (s1 s2 : List Nat → Nat → Option (String × Nat))
    (h : ∀ code ip, s1 code ip = s2 code ip) (code : List Nat) :
    ∀ fuel ip, engineTrace s1 code fuel ip = engineTrace s2 code fuel ip := by
  intro fuel
  induction fuel with
  | zero => intro ip; rfl
  | succ f ih =>
    intro ip
    rw [engineTrace, engineTrace, h]
    cases s2 code ip with
    | none => rfl
    | some pr =>
      cases pr with
      | mk oc ip2 =>
        show (oc, ip2) :: engineTrace s1 code f ip2 =
          (oc, ip2) :: engineTrace s2 code f ip2
        rw [ih]

/-- C1: for every instruction stream (well-formed or not), the
label-threaded dispatch engine, the switch-based dispatch engine, and
the two generated disassemblers compute identical traces: the same
instruction-pointer trajectory and the same opcode-label sequence, each
instruction advancing the pointer by 1 + operand count (plus the decoded
sub-block length after a `call`), stopping at `halt`. -/
theorem engine_agreement (code : List Nat) (fuel ip : Nat) :
    engineTrace dispatchStepLabel code fuel ip = engineTrace dispatchStepSwitch code fuel ip ∧
    engineTrace dispatchStepLabel code fuel ip = engineTrace disStepLabel code fuel ip ∧
    engineTrace disStepLabel code fuel ip = engineTrace disStepSwitch code fuel ip :=
  ⟨by rw [dispatch_label_eq_switch],
   engineTrace_congr _ _ dispatch_step_eq_dis_step code fuel ip,
   by rw [dis_label_eq_switch]⟩

set_option maxRecDepth 100000 in
/-- C5 counterexample: on "alloc(2 operands), write(1 operand), halt"
the generated engines produce the pointer trajectory 0, 3, 5 and stop at
5 on reading `halt`; the pointer never reaches 6, so the claimed
trajectory 0 -> 3 -> 5 -> 6 is wrong on its last step. -/
theorem alloc_write_halt_not_claimed :
    ipTrajectory dispatchStepLabel c5_code 10 ≠ [0, 3, 5, 6] ∧
    ipTrajectory dispatchStepSwitch c5_code 10 ≠ [0, 3, 5, 6] := by decide

set_option maxRecDepth 100000 in
/-- C5 amended: on "alloc(2 operands), write(1 operand), halt" both
dispatch engines (and both disassemblers) produce the trajectory
0 -> 3 -> 5, executing `alloc` then `write`, and `halt` at position 5
terminates immediately without consuming operands or advancing the
pointer. -/
theorem alloc_write_halt_trajectory :
    ipTrajectory dispatchStepLabel c5_code 10 = [0, 3, 5] ∧
    ipTrajectory dispatchStepSwitch c5_code 10 = [0, 3, 5] ∧
    ipTrajectory disStepLabel c5_code 10 = [0, 3, 5] ∧
    ipTrajectory disStepSwitch c5_code 10 = [0, 3, 5] ∧
    (engineTrace dispatchStepLabel c5_code 10 0).map Prod.fst = ["alloc", "write"] ∧
    dispatchStepLabel c5_code 5 = none ∧ dispatchStepSwitch c5_code 5 = none := by
  decide

set_option maxRecDepth 100000 in
/-- C6: the `call` and `ret` entries make the generated dispatch code
pass the instruction stream to the external operation, and on a `call`
whose trailing operand encodes sub-block length 4 (operand 16,
16 >>> 2 = 4) both dispatch engines and both disassemblers step from
pointer 0 to pointer 7 = 3 + 4, skipping exactly the 4 words of the
nested sub-block. -/
theorem call_subblock_skip :
    opcodes[15]? = some ⟨"", "call", "", 2⟩ ∧
    opcodes[14]? = some ⟨"", "ret", "", 1⟩ ∧
    dispatchArgs c6_code 0 ⟨"", "call", "", 2⟩ =
      [DispatchArg.operand 9, DispatchArg.operand 16, DispatchArg.stream c6_code] ∧
    dispatchArgs c6_code 0 ⟨"", "ret", "", 1⟩ =
      [DispatchArg.operand 9, DispatchArg.stream c6_code] ∧
    (16 : Nat) >>> 2 = 4 ∧
    dispatchStepLabel c6_code 0 = some ("call", 7) ∧
    dispatchStepSwitch c6_code 0 = some ("call", 7) ∧
    disStepLabel c6_code 0 = some ("call", 7) ∧
    disStepSwitch c6_code 0 = some ("call", 7) := by decide

/-- Table-wide check: on every emitted opcode (nonempty surface name) the
surface-name-keyed lookup the writer performs agrees with keying on the
canonical name. -/
theorem trait_agree_allB :
    opcodes.all (fun o =>
      decide (o.emp ≠ "" → builtinTraits o.emp = builtinTraits o.name)) = true := by
  decide!

/-- C7: the trait assigner is a total function from name to trait
bitset: `load` maps to autostream only, `store` and `print` to the empty
set, `range` to the default set plus autostream; any name without an
override gets the default set \{pure, transform, linear\}; and on every
emitted opcode keying by canonical name agrees with the writer's
surface-name keying. -/
theorem trait_assignment_total :
    builtinTraits "load" = autostream_trait ∧
    builtinTraits "store" = 0 ∧
    builtinTraits "print" = 0 ∧
    builtinTraits "range" = (all_traits ||| autostream_trait) ∧
    (∀ name : String, trait_overrides.lookup name = none →
      builtinTraits name = all_traits) ∧
    (∀ o ∈ opcodes, o.emp ≠ "" → builtinTraits o.emp = builtinTraits o.name) := by
  refine ⟨by decide, by decide, by decide, by decide, ?_, ?_⟩
  · intro name h
    unfold builtinTraits
    rw [h]
  · intro o ho h
    exact of_decide_eq_true (List.all_eq_true.mp trait_agree_allB o ho) h

set_option maxRecDepth 10000 in
/-- Witness for C7 at concrete inputs: `add` has no override and gets the
default set; the emitted entry `("+", "add", "(Int64,Int64)->Int64", 3)`
gets the same traits whether keyed by surface or canonical name. -/
theorem trait_assignment_total_witness :
    trait_overrides.lookup "add" = none ∧
    builtinTraits "add" = all_traits ∧
    (⟨"+", "add", "(Int64,Int64)->Int64", 3⟩ : OpEntry) ∈ opcodes ∧
    ("+" : String) ≠ "" ∧
    builtinTraits "+" = builtinTraits "add" :=
  ⟨by decide, trait_assignment_total.2.2.2.2.1 "add" (by decide), by decide!,
   by decide,
   trait_assignment_total.2.2.2.2.2 ⟨"+", "add", "(Int64,Int64)->Int64", 3⟩
     (by decide!) (by decide)⟩

set_option maxRecDepth 10000 in
/-- C8 counterexample: `asofnear` is not statically excluded during
enumeration (the table carries a single type-generic entry for it), and
for the registered type `Bool` the generated dispatch helper contains an
explicit runtime failure path (a `throw` case), contradicting the claim
that no such path exists for statically impossible inputs. -/
theorem asof_runtime_throw_exists :
    (⟨"", "asofnear", "", 7⟩ : OpEntry) ∈ opcodes ∧
    "Bool" ∈ types.map (fun t => t.1) ∧
    restrictedAsofCase "Bool" = AsofCaseBody.throwErr := by decide

set_option maxRecDepth 10000 in
/-- C8 amended: each restricted asof operation is enumerated as a single
type-generic opcode (the concrete type arrives as a runtime operand),
and the generated helper dispatches to an implementation exactly for the
ordered types Int64, Float64, Timestamp, Time and Date, while every
other registered type (Bool, String, Char, and also Timedelta) gets an
explicit runtime `throw` branch, annotated as unreachable under the
front end's static type check, rather than being statically excluded. -/
theorem asof_restriction :
    (∀ p ∈ restricted_asof_ops, (⟨"", p.1, "", p.2⟩ : OpEntry) ∈ opcodes) ∧
    (∀ t ∈ types, (restrictedAsofCase t.1 = AsofCaseBody.throwErr ↔
      t.1 ∈ ["Bool", "String", "Char", "Timedelta"])) := by
  constructor
  · intro p hp
    fin_cases hp <;> decide
  · intro t ht
    fin_cases ht <;> decide

set_option maxRecDepth 10000 in
/-- Witness for C8 at concrete inputs: the `asofnear` entry is in the
table, and for `Bool` the generated case is the `throw` branch. -/
theorem asof_restriction_witness :
    (⟨"", "asofnear", "", 7⟩ : OpEntry) ∈ opcodes ∧
    (restrictedAsofCase "Bool" = AsofCaseBody.throwErr ↔
      "Bool" ∈ ["Bool", "String", "Char", "Timedelta"]) :=
  ⟨asof_restriction.1 ("asofnear", 7) (by decide),
   asof_restriction.2 ("Bool", "b8", "bool") (by decide)⟩

/-- Table-wide Boolean round-trip check. -/
theorem roundtrip_allB :
    opcodes.all (fun o => decide (o.sig ≠ "" →
      (idChunks o).bind (fun cs => cs.mapM decodeSuffix) =
        some (expectedTypes o))) = true := by
  decide!

/-- C3: for every table entry with a nonempty signature, decoding the
underscore-separated suffixes of its `get_opcode` identifier via the
type registry recovers exactly the concrete parameter types of the
signature (and, for `cast`, also the target type). -/
theorem opcode_id_roundtrip :
    ∀ o ∈ opcodes, o.sig ≠ "" →
      (idChunks o).bind (fun cs => cs.mapM decodeSuffix) =
        some (expectedTypes o) := by
  intro o ho
  exact of_decide_eq_true (List.all_eq_true.mp roundtrip_allB o ho)

set_option maxRecDepth 10000 in
/-- Witness for C3 at the `now` entry: its identifier `now_Ts` decodes
back to the parameter type `Timestamp`. -/
theorem opcode_id_roundtrip_witness :
    (⟨"now", "now", "Timestamp", 1⟩ : OpEntry) ∈ opcodes ∧
    ("Timestamp" : String) ≠ "" ∧
    (idChunks ⟨"now", "now", "Timestamp", 1⟩).bind
      (fun cs => cs.mapM decodeSuffix) = some ["Timestamp"] :=
  ⟨by decide, by decide,
   (opcode_id_roundtrip ⟨"now", "now", "Timestamp", 1⟩ (by decide)
     (by decide)).trans (by decide)⟩

theorem isSublistB_sublist :
    ∀ l2 l1 : List OpEntry, isSublistB l1 l2 = true → l1.Sublist l2 := by
  intro l2
  induction l2 with
  | nil =>
    intro l1 h
    cases l1 with
    | nil => exact List.Sublist.refl []
    | cons a t => exact absurd h (by rw [isSublistB]; exact Bool.false_ne_true)
  | cons b t2 ih =>
    intro l1 h
    cases l1 with
    | nil => exact List.nil_sublist _
    | cons a t1 =>
      rw [isSublistB] at h
      by_cases hab : a = b
      · rw [if_pos hab] at h
        exact hab ▸ List.Sublist.cons₂ b (ih t1 h)
      · rw [if_neg hab] at h
        exact List.Sublist.cons b (ih (a :: t1) h)

/-- The required counterparts occur, in order, in the table. -/
theorem needed_sublistB : isSublistB neededCounterparts opcodes = true := by
  decide!

theorem needed_sublist : neededCounterparts.Sublist opcodes :=
  isSublistB_sublist opcodes neededCounterparts needed_sublistB

/-- C4 counterexample Boolean check: no entry is `now` with an array
signature. -/
theorem no_array_now_allB :
    opcodes.all (fun o => !(o.name == "now" && o.sig == "[Timestamp]")) = true := by
  decide!

set_option maxRecDepth 10000 in
/-- C4 counterexample: the `now` entry has the scalar-form signature
`Timestamp`, whose array counterpart would be `[Timestamp]`, but the
table contains no entry with canonical name `now` and that signature:
scalar and array opcodes are not always paired. -/
theorem now_unpaired :
    (⟨"now", "now", "Timestamp", 1⟩ : OpEntry) ∈ opcodes ∧
    isScalarSig "Timestamp" = true ∧
    arrayifySig "Timestamp" = "[Timestamp]" ∧
    ¬ ∃ o' ∈ opcodes, o'.name = "now" ∧ o'.sig = "[Timestamp]" := by
  refine ⟨by decide, by decide, by decide, ?_⟩
  rintro ⟨o', ho', h1, h2⟩
  have h := List.all_eq_true.mp no_array_now_allB o' ho'
  rw [h1, h2] at h
  exact absurd h (by decide)

/-- C4 amended: every opcode-table entry in scalar form, other than
`now` and the timedelta-literal opcodes `unit_*`, has an entry with the
same canonical name whose signature is the array-form counterpart (in
fact the counterpart also shares the surface name and arity). -/
theorem scalar_array_pairing :
    ∀ o ∈ opcodes, isScalarSig o.sig = true → o.name ≠ "now" →
      o.name ∉ units.map (fun u => "unit_" ++ u) →
      ∃ o' ∈ opcodes, o'.name = o.name ∧ o'.sig = arrayifySig o.sig := by
  intro o ho hs hn hu
  have hmem : (⟨o.emp, o.name, arrayifySig o.sig, o.arity⟩ : OpEntry) ∈
      neededCounterparts := by
    apply List.mem_filterMap.mpr
    refine ⟨o, ho, ?_⟩
    rw [if_pos ⟨hs, hn, hu⟩]
  exact ⟨⟨o.emp, o.name, arrayifySig o.sig, o.arity⟩,
    needed_sublist.mem hmem, rfl, rfl⟩

set_option maxRecDepth 10000 in
/-- Witness for C4 at the scalar `del` entry: its array counterpart
`[Int64]` with the same canonical name is in the table. -/
theorem scalar_array_pairing_witness :
    (∃ o' ∈ opcodes, o'.name = "del" ∧ o'.sig = arrayifySig "Int64") ∧
    arrayifySig "Int64" = "[Int64]" :=
  ⟨scalar_array_pairing ⟨"", "del", "Int64", 1⟩ (by decide!) (by decide)
    (by decide) (by decide), by decide⟩

/-- On the spaceless input, one loop iteration appends `cur[:-1]` but
leaves `cur` unchanged (`i = -1`, so `cur = cur[i+1:] = cur[0:]`): the
loop makes no progress. -/
theorem reflowLoop_c10_step (fuel : Nat) (padding : List Char) (nlines : Nat) :
    reflowLoop (fuel + 1) c10_s 80 padding nlines =
      (reflowLoop fuel c10_s 80 padding (nlines + 1)).map
        (fun rest => (padding ++ pySlice c10_s 0 (-1)) :: rest) := by
  cases nlines with
  | zero => rfl
  | succ k => rfl

theorem reflowLoop_c10_none :
    ∀ fuel (padding : List Char) (nlines : Nat),
      reflowLoop fuel c10_s 80 padding nlines = none := by
  intro fuel
  induction fuel with
  | zero => intro padding nlines; rfl
  | succ f ih =>
    intro padding nlines
    rw [reflowLoop_c10_step, ih]
    rfl

/-- C10: `reflow_lines` does not terminate on every input: on a line of
81 `a`s (longer than the 80-column budget, with no space character) the
loop never returns, whatever the fuel — the break index stays `-1` and
`cur = cur[0:]` never shrinks. -/
theorem reflow_lines_nonterminating (fuel : Nat) :
    reflow_lines c10_s 0 fuel = none := by
  show reflowLoop fuel c10_s 80 [] 0 = none
  exact reflowLoop_c10_none fuel [] 0

set_option maxRecDepth 10000 in
/-- C9 counterexample: when no space precedes the budget the fallback
break at the first space produces an over-budget line: on 81 `a`s
followed by `" b"` at depth 0, `reflow_lines` returns a first line of 81
columns, exceeding the 80-column budget. -/
theorem reflow_over_budget :
    reflow_lines c9_s 0 5 = some [List.replicate 81 'a', ['b']] ∧
    (MAX_COL : Int) < (TABSIZE * 0 : Int) + (List.replicate 81 'a').length := by
  constructor
  · rfl
  · decide

/-! ### Budget legality of clean reflows (C9, amended) -/

theorem pyBound_le (n : Nat) (i : Int) : pyBound n i ≤ n := by
  unfold pyBound
  split_ifs with h
  · omega
  · exact min_le_left _ _

theorem pyBound_zero (n : Nat) : pyBound n 0 = 0 := by
  unfold pyBound
  rw [if_neg (by omega)]
  simp

theorem pyBound_le_toNat (n : Nat) (i : Int) (h : 0 ≤ i) :
    pyBound n i ≤ i.toNat := by
  unfold pyBound
  rw [if_neg (by omega)]
  exact min_le_right _ _

theorem pyBound_cast_le (n : Nat) (i : Int) (h : 0 ≤ i) :
    (pyBound n i : Int) ≤ i := by
  have h1 := pyBound_le_toNat n i h
  omega

theorem pySlice_zero (l : List Char) (i : Int) :
    pySlice l 0 i = l.take (pyBound l.length i) := by
  unfold pySlice
  rw [pyBound_zero, List.drop_zero]

theorem pySlice_zero_length (l : List Char) (i : Int) :
    (pySlice l 0 i).length = pyBound l.length i := by
  rw [pySlice_zero, List.length_take]
  have := pyBound_le l.length i
  omega

/-- A successful `rfind(c, 0, b)` returns an index in `[0, pyBound n b)`. -/
theorem pyRfind_cases (l : List Char) (c : Char) (b : Int) :
    pyRfindChar l c 0 b = -1 ∨
      (0 ≤ pyRfindChar l c 0 b ∧
        pyRfindChar l c 0 b < (pyBound l.length b : Int)) := by
  simp only [pyRfindChar, pyBound_zero, List.drop_zero]
  cases hf : (l.take (pyBound l.length b)).reverse.findIdx? (fun x => x == c) with
  | none => exact Or.inl rfl
  | some k =>
    right
    refine ⟨Int.natCast_nonneg _, ?_⟩
    show ((0 + ((l.take (pyBound l.length b)).length - 1 - k) : Nat) : Int) <
      (pyBound l.length b : Int)
    have hne : l.take (pyBound l.length b) ≠ [] := by
      intro h
      rw [h] at hf
      simp at hf
    have hlen : 1 ≤ (l.take (pyBound l.length b)).length := by
      cases hcs : l.take (pyBound l.length b) with
      | nil => exact absurd hcs hne
      | cons a t => simp
    have hsl : (l.take (pyBound l.length b)).length ≤ pyBound l.length b := by
      rw [List.length_take]
      exact min_le_left _ _
    have h2 : 0 + ((l.take (pyBound l.length b)).length - 1 - k) <
        pyBound l.length b := by omega
    exact_mod_cast h2

theorem reflowBreak_fst (cur : List Char) (size : Int) :
    (reflowBreak cur size).1 = pyRfindChar cur ' ' 0 size := rfl

/-- When the last-space search succeeds and no quote adjustment fires,
the chosen break is exactly the last space before the budget. -/
theorem reflowBreak_clean_i (cur : List Char) (size : Int)
    (h0 : (reflowBreak cur size).1 ≠ -1)
    (hadj : (reflowBreak cur size).2.1 = false) :
    (reflowBreak cur size).2.2 = pyRfindChar cur ' ' 0 size := by
  rw [reflowBreak_fst] at h0
  simp only [reflowBreak, if_neg h0] at hadj ⊢
  rw [hadj]
  simp

theorem reflowResize_le (cur : List Char) (i size : Int) (padding : List Char)
    (nlines : Nat) : (reflowResize cur i size padding nlines).1 ≤ size := by
  unfold reflowResize
  split_ifs with h1 h2 h3 <;> simp <;> omega

theorem reflowResize_fst_pad (cur : List Char) (i size : Int)
    (p1 p2 : List Char) (nlines : Nat) :
    (reflowResize cur i size p1 nlines).1 = (reflowResize cur i size p2 nlines).1 := by
  unfold reflowResize
  split_ifs <;> rfl

theorem reflowResize_sum (cur : List Char) (i size : Int) (padding : List Char)
    (nlines : Nat) :
    ((reflowResize cur i size padding nlines).2.length : Int) +
      (reflowResize cur i size padding nlines).1 ≤
      (padding.length : Int) + size := by
  unfold reflowResize
  split_ifs with h1 h2 h3 <;> simp <;> omega

/-- A terminating run forces a nonnegative budget: the loop only exits
when `len(cur) ≤ size`, and `size` never increases. -/
theorem reflowLoop_some_nonneg :
    ∀ (fuel : Nat) (cur : List Char) (size : Int) (padding : List Char)
      (nlines : Nat) (lines : List (List Char)),
      reflowLoop fuel cur size padding nlines = some lines → 0 ≤ size := by
  intro fuel
  induction fuel with
  | zero =>
    intro cur size padding nlines lines hr
    simp only [reflowLoop] at hr
    by_cases h : (cur.length : Int) > size
    · rw [if_pos h] at hr; cases hr
    · omega
  | succ f ih =>
    intro cur size padding nlines lines hr
    simp only [reflowLoop] at hr
    by_cases h : (cur.length : Int) > size
    · rw [if_pos h] at hr
      simp only [Option.map_eq_some'] at hr
      obtain ⟨rest, hrec, -⟩ := hr
      have h1 := ih _ _ _ _ _ hrec
      have h2 := reflowResize_le cur ((reflowBreak cur size).2.2) size padding nlines
      omega
    · omega

/-- Budget invariant: if the loop terminates and every iteration was
clean (last-space search succeeded, no quote adjustment), then every
produced physical line fits in `padding.length + size` columns. -/
theorem reflowLoop_budget :
    ∀ (fuel : Nat) (cur : List Char) (size : Int) (padding : List Char)
      (nlines : Nat) (lines : List (List Char)),
      reflowLoop fuel cur size padding nlines = some lines →
      cleanLoop fuel cur size nlines = true →
      ∀ l ∈ lines, (l.length : Int) ≤ (padding.length : Int) + size := by
  intro fuel
  induction fuel with
  | zero =>
    intro cur size padding nlines lines hr hc l hl
    simp only [reflowLoop] at hr
    by_cases h : (cur.length : Int) > size
    · rw [if_pos h] at hr; cases hr
    · rw [if_neg h] at hr
      cases hr
      rw [List.mem_singleton] at hl
      subst hl
      rw [List.length_append]
      omega
  | succ f ih =>
    intro cur size padding nlines lines hr hc l hl
    simp only [reflowLoop] at hr
    simp only [cleanLoop] at hc
    by_cases h : (cur.length : Int) > size
    · rw [if_pos h] at hr hc
      simp only [Bool.and_eq_true, decide_eq_true_eq, Bool.not_eq_true'] at hc
      obtain ⟨⟨hi0, hadj⟩, hclean⟩ := hc
      simp only [Option.map_eq_some'] at hr
      obtain ⟨rest, hrec, heq⟩ := hr
      have hnn : (0 : Int) ≤ (reflowResize cur ((reflowBreak cur size).2.2) size
          padding nlines).1 := reflowLoop_some_nonneg _ _ _ _ _ _ hrec
      have hrle := reflowResize_le cur ((reflowBreak cur size).2.2) size padding nlines
      have hsz : (0 : Int) ≤ size := le_trans hnn hrle
      subst heq
      rw [List.mem_cons] at hl
      rcases hl with rfl | hl2
      · -- the line appended this iteration
        have hieq := reflowBreak_clean_i cur size hi0 hadj
        rw [reflowBreak_fst] at hi0
        rcases pyRfind_cases cur ' ' size with hcase | ⟨hge, hlt⟩
        · exact absurd hcase hi0
        · rw [List.length_append, pySlice_zero_length, hieq]
          have hb1 := pyBound_le_toNat cur.length (pyRfindChar cur ' ' 0 size) hge
          have hb2 := pyBound_cast_le cur.length size hsz
          omega
      · -- a line of the recursive tail
        have hcl2 : cleanLoop f (pySlice cur ((reflowBreak cur size).2.2 + 1)
            (cur.length : Int))
            (reflowResize cur ((reflowBreak cur size).2.2) size padding nlines).1
            (nlines + 1) = true := by
          rw [reflowResize_fst_pad cur ((reflowBreak cur size).2.2) size padding []]
          exact hclean
        have := ih _ _ _ _ _ hrec hcl2 l hl2
        have hsum := reflowResize_sum cur ((reflowBreak cur size).2.2) size padding nlines
        omega
    · rw [if_neg h] at hr
      cases hr
      rw [List.mem_singleton] at hl
      subst hl
      rw [List.length_append]
      omega

/-- C9 amended: every line returned by `reflow_lines(s, depth)`, once
indented by `depth` tabs of `TABSIZE` columns, fits within the
`MAX_COL = 80` column budget, provided every loop iteration broke at the
last space before the budget with an even-quote prefix (`cleanLoop`);
when the last-space search fails, the fallback break at the first space
in the line (or the quote-boundary adjustment) may produce a line
exceeding the budget, as `reflow_over_budget` shows. -/
theorem reflow_lines_budget (s : List Char) (depth fuel : Nat)
    (lines : List (List Char))
    (hr : reflow_lines s depth fuel = some lines)
    (hc : cleanLoop fuel s ((MAX_COL : Int) - (depth : Int) * (TABSIZE : Int)) 0 = true) :
    ∀ l ∈ lines, (TABSIZE : Int) * (depth : Int) + l.length ≤ (MAX_COL : Int) := by
  intro l hl
  rw [mul_comm (TABSIZE : Int) (depth : Int)]
  simp only [reflow_lines] at hr
  by_cases h : (s.length : Int) < (MAX_COL : Int) - (depth : Int) * (TABSIZE : Int)
  · rw [if_pos h] at hr
    cases hr
    rw [List.mem_singleton] at hl
    subst hl
    omega
  · rw [if_neg h] at hr
    have := reflowLoop_budget fuel s _ [] 0 lines hr hc l hl
    simp only [List.length_nil] at this
    omega

set_option maxRecDepth 10000 in
/-- Witness for the amended C9 on a concrete clean input: a 79-character
word, a space at column 79, and a 9-character tail reflow into two lines
of 79 and 9 columns, both within budget at depth 0. -/
theorem reflow_lines_budget_witness :
    (TABSIZE : Int) * ((0 : Nat) : Int) + (List.replicate 79 'a').length ≤ (MAX_COL : Int) :=
  reflow_lines_budget c9w_s 0 5 [List.replicate 79 'a', List.replicate 9 'b']
    (by rfl) (by rfl) (List.replicate 79 'a') (by decide)

end GenVVM







